import Mathlib

/-!
Shallow embedding of alembic_utils (file src/alembic_utils/replaceable_entity.py).

The embedding keeps the structure of the Python source:

- a ReplaceableEntity is the value object of the source constructor: the
  schema, signature and definition fields hold the already-normalized strings
  (the normalization helpers normalize_whitespace and
  strip_terminating_semicolon live in a module that is not part of the
  sources; the fields here stand for their output), plus the concrete
  subclass name (kind), which the source uses through classmethods such as
  from_database and through ReplaceableEntity subclass enumeration.

- the live database is a list of live entities (Db).  A SQLAlchemy session
  is a current database value plus a savepoint stack: begin_nested pushes
  the current value, rollback pops and restores it.

- identity and definition comparables are DB-computed opaque tuples.  The
  source routes every computation through a process-wide cache keyed by
  (class, comparison kind, schema, signature, definition), i.e. by the whole
  entity value, so a comparable is a pure function of the entity; the
  environment DbEnv carries those two functions as the equality oracle.

- executing a create-or-replace statement is database behaviour that is not
  part of the sources.  Modelled from the spec (section 4.4): a statement
  succeeds exactly when every object referenced by the create statement of
  the entity is present in the session state, and on success the entity
  becomes live (replacing a previous object of the same kind and identity).
  DbEnv.deps carries the referenced-objects function.

All operations are translated from the source and are executable.
-/

namespace AlembicUtils

/-- Decidable equality for results, so that concrete runs of the plan
computation can be checked by evaluation. -/
instance {ε α : Type} [DecidableEq ε] [DecidableEq α] : DecidableEq (Except ε α)
  | .ok a, .ok b =>
    if h : a = b then isTrue (by rw [h]) else isFalse (by intro hh; cases hh; exact h rfl)
  | .ok _, .error _ => isFalse (by intro h; cases h)
  | .error _, .ok _ => isFalse (by intro h; cases h)
  | .error a, .error b =>
    if h : a = b then isTrue (by rw [h]) else isFalse (by intro hh; cases hh; exact h rfl)

/-- A replaceable SQL entity: the value object built by the source
constructor, with the concrete subclass recorded in kind. -/
structure ReplaceableEntity where
  kind : String
  schema : String
  signature : String
  definition : String
deriving DecidableEq, Repr

/-- Source property identity: a string that consistently and globally
identifies a function, built as the concatenation schema dot signature. -/
def ReplaceableEntity.identity (e : ReplaceableEntity) : String :=
  e.schema ++ "." ++ e.signature

/-- The errors raised by the source: DuplicateRegistration,
FailedToGenerateComparable and UnreachableException come from
alembic_utils.exceptions (the module itself is outside the sources; only
the constructor names and the raise sites are used here).
materializationFailed models the underlying database error raised by a
failed create-or-replace statement, which simulate_entities lets propagate
unchanged. -/
inductive PlanError where
  | duplicateRegistration (message : String)
  | failedToGenerateComparable (message : String)
  | unreachableException
  | materializationFailed
deriving DecidableEq, Repr

/-- The four migration operations of the source: CreateOp, DropOp,
ReplaceOp and RevertOp, each wrapping exactly one target entity. -/
inductive ReversibleOp where
  | create (target : ReplaceableEntity)
  | drop (target : ReplaceableEntity)
  | replace (target : ReplaceableEntity)
  | revert (target : ReplaceableEntity)
deriving DecidableEq, Repr

/-- The target entity wrapped by an operation. -/
def ReversibleOp.target : ReversibleOp → ReplaceableEntity
  | .create t => t
  | .drop t => t
  | .replace t => t
  | .revert t => t

/-- The reverse methods of the source: CreateOp.reverse builds a DropOp,
DropOp.reverse a CreateOp, ReplaceOp.reverse a RevertOp.  RevertOp defines
no reverse; the source comment says Revert is never in an upgrade, so no
need to implement reverse.  Modelled from the spec: calling reverse on a
RevertOp is a programming error, rendered here as none. -/
def ReversibleOp.reverse : ReversibleOp → Option ReversibleOp
  | .create t => some (.drop t)
  | .drop t => some (.create t)
  | .replace t => some (.revert t)
  | .revert _ => none

/-- The live database: the list of currently live entities. -/
abbrev Db := List ReplaceableEntity

/-- The database-side oracle held fixed during one plan computation.
idCmp and defCmp are the identity and definition comparables
(get_identity_comparable and get_definition_comparable): opaque tuples
computed by the database, pure in the entity because the source caches them
by the full entity value.  deps is modelled from the spec: the objects
referenced by the create-or-replace statement of an entity.  kinds lists
the registered ReplaceableEntity subclasses. -/
structure DbEnv where
  idCmp : ReplaceableEntity → List String
  defCmp : ReplaceableEntity → List String
  deps : ReplaceableEntity → List ReplaceableEntity
  kinds : List String

/-- Source classmethod from_database: collect existing entities of one
subclass from the database for a given schema. -/
def from_database (d : Db) (kind schema : String) : Db :=
  d.filter (fun x => x.kind == kind && x.schema == schema)

/-- Execution of one create-or-replace statement.  Modelled from the spec
(section 4.4): the statement succeeds exactly when every object referenced
by the create statement is present in the session state; on success the
entity becomes live, replacing any previous object of the same kind and
identity. -/
def applyCreateOrReplace (env : DbEnv) (e : ReplaceableEntity) (d : Db) : Option Db :=
  if (env.deps e).all (fun x => decide (x ∈ d)) then
    some (e :: d.filter (fun x => !(x.kind == e.kind && x.identity == e.identity)))
  else
    none

/-- Execute the create-or-replace statements of a list of entities in the
order the list is given, stopping at the first failure. -/
def execCreates (env : DbEnv) : List ReplaceableEntity → Db → Option Db
  | [], d => some d
  | e :: rest, d =>
    match applyCreateOrReplace env e d with
    | none => none
    | some d1 => execCreates env rest d1

/-- A SQLAlchemy session: the current in-transaction database value and the
stack of savepoints opened by begin_nested. -/
structure Sess where
  cur : Db
  saved : List Db
deriving DecidableEq, Repr

/-- Session begin_nested: open a savepoint remembering the current state. -/
def beginNested (s : Sess) : Sess :=
  { s with saved := s.cur :: s.saved }

/-- Session rollback: return to the innermost savepoint, discarding every
change made since it was opened. -/
def Sess.rollback (s : Sess) : Sess :=
  match s.saved with
  | [] => s
  | d :: rest => { cur := d, saved := rest }

/-- Source context manager simulate_entities: begin a nested transaction,
execute the create-or-replace statement of every entity in the order given,
run the body, and roll the nested transaction back on every exit path (the
rollback sits in a finally block).  A failing create statement makes the
error propagate to the caller, after the rollback has run. -/
def simulate_entities {α : Type} (env : DbEnv) (s : Sess) (entities : List ReplaceableEntity)
    (body : Sess → Except PlanError α × Sess) : Except PlanError α × Sess :=
  let s1 := beginNested s
  match execCreates env entities s1.cur with
  | none => (Except.error PlanError.materializationFailed, s1.rollback)
  | some d1 =>
    let r := body { s1 with cur := d1 }
    (r.1, r.2.rollback)

/-- Source method get_required_migration_op: list all entities in the
database for the schema of self (as seen by the ambient session state d),
then decide: if any of them has an equal definition comparable, no
operation; else if any has an equal identity comparable, ReplaceOp; else
CreateOp. -/
def get_required_migration_op (env : DbEnv) (d : Db) (e : ReplaceableEntity) :
    Option ReversibleOp :=
  let entities_in_database := from_database d e.kind e.schema
  let found_identical := entities_in_database.any (fun x => env.defCmp e == env.defCmp x)
  let found_signature := entities_in_database.any (fun x => env.idCmp e == env.idCmp x)
  if found_identical then none
  else if found_signature then some (.replace e)
  else some (.create e)

/-- Source method get_database_definition: look self up among the database
entities of the same schema and return the first entity with an equal
identity comparable, or none when there is no match. -/
def get_database_definition (env : DbEnv) (d : Db) (e : ReplaceableEntity) :
    Option ReplaceableEntity :=
  let all_entities := from_database d e.kind e.schema
  let matchList := all_entities.filter (fun x => env.idCmp e == env.idCmp x)
  matchList.head?

/-- Source method to_variable_name: lower-cased schema, an underscore, and
the lower-cased stripped part of the signature before the first opening
parenthesis. -/
def to_variable_name (e : ReplaceableEntity) : String :=
  let schema_name := e.schema.toLower
  let object_name := ((e.signature.splitOn "(").headD "").trim.toLower
  schema_name ++ "_" ++ object_name

/-- Python repr of a string, modelled for printable text: a single-quoted
literal escaping backslash, quote, newline, carriage return and tab; when
the text holds a single quote and no double quote, CPython switches to
double quotes.  CPython additionally hex-escapes non-printable characters,
which no claim exercises. -/
def pyReprChar (q : Char) (c : Char) : String :=
  if c = Char.ofNat 92 then "\\\\"
  else if c = q then "\\" ++ q.toString
  else if c = Char.ofNat 10 then "\\n"
  else if c = Char.ofNat 13 then "\\r"
  else if c = Char.ofNat 9 then "\\t"
  else c.toString

/-- Python repr of a string (see pyReprChar). -/
def pyRepr (s : String) : String :=
  let single := Char.ofNat 39
  let double := Char.ofNat 34
  let q := if s.contains single && !(s.contains double) then double else single
  q.toString ++ String.join (s.data.map (pyReprChar q)) ++ q.toString

/-- Source method render_self_for_migration: python code reconstructing the
entity in a migration script. -/
def render_self_for_migration (e : ReplaceableEntity) (omit_definition : Bool) : String :=
  let var_name := to_variable_name e
  let class_name := e.kind
  let escaped_definition := if omit_definition then "# not required for op" else e.definition
  var_name ++ " = " ++ class_name ++ "(\n            schema=\"" ++ e.schema ++
    "\",\n            signature=\"" ++ e.signature ++
    "\",\n            definition=" ++ pyRepr escaped_definition ++ "\n        )\n\n"

/-- Source renderer render_revert_entity: look up the entity currently live
in the database and render it as the downgrade revert target.  The source
dereferences the result of get_database_definition with no None guard
(db_target.to_variable_name()), so when no live entity matches, rendering
fails with an attribute error instead of producing migration text; the
failure is rendered here as none. -/
def render_revert_entity (env : DbEnv) (d : Db) (op : ReversibleOp) : Option String :=
  let target := op.target
  match get_database_definition env d target with
  | none => none
  | some db_target =>
    some (render_self_for_migration db_target false ++
      "op.replace_entity(" ++ to_variable_name db_target ++ ")")

/-- One trial placement of the resolver loop in compare_registered_entities:
skip an already resolved entity; otherwise simulate the resolved entities
plus the candidate and append the candidate on success. -/
def trialStep {α : Type} [DecidableEq α] (ok : List α → α → Bool) (res : List α) (e : α) :
    List α :=
  if e ∈ res then res
  else if ok res e then res ++ [e]
  else res

/-- One full pass of the resolver: try every entity in input order. -/
def resolutionPass {α : Type} [DecidableEq α] (ok : List α → α → Bool)
    (entities res : List α) : List α :=
  entities.foldl (trialStep ok) res

/-- The resolver loop: n passes starting from the empty resolved list. -/
def resolutionLoop {α : Type} [DecidableEq α] (ok : List α → α → Bool)
    (entities : List α) : Nat → List α
  | 0 => []
  | n + 1 => resolutionPass ok entities (resolutionLoop ok entities n)

/-- The source resolver: len(entities) passes over the entity list. -/
def solveResolutionOrder {α : Type} [DecidableEq α] (ok : List α → α → Bool)
    (entities : List α) : List α :=
  resolutionLoop ok entities entities.length

/-- Sandbox trial success as used by the resolver (modelled from the spec,
section 4.4): simulating context plus candidate from session state d
succeeds when every create-or-replace statement executes. -/
def trialOk (env : DbEnv) (d : Db) (ctx : List ReplaceableEntity) (e : ReplaceableEntity) :
    Bool :=
  (execCreates env (ctx ++ [e]) d).isSome

/-- Success of a trial under the spec dependency semantics alone: every
object referenced by the candidate is already in the resolved context.
Modelled from the spec, section 4.4: the termination argument reads a trial
as succeeding exactly when the actual dependencies of the entity are
already resolved. -/
def depsOk {α : Type} [DecidableEq α] (deps : α → List α) (ctx : List α) (e : α) : Bool :=
  (deps e).all (fun d => decide (d ∈ ctx))

/-- Source lines 383-397: after the resolution loop, the first entity still
unresolved is re-simulated; a failing simulation raises
FailedToGenerateComparable naming the entity signature, and a succeeding
one raises UnreachableException (the source comment: if it somehow passes,
never should, exit with error anyway). -/
def postResolutionCheck (ok : List ReplaceableEntity → ReplaceableEntity → Bool)
    (entities resolved : List ReplaceableEntity) : Except PlanError Unit :=
  match entities.find? (fun e => decide (e ∉ resolved)) with
  | none => .ok ()
  | some e =>
    if ok resolved e then .error .unreachableException
    else .error (.failedToGenerateComparable ("failed to simulate entity " ++ e.signature))

/-- Byte-wise comparison of character lists, the order Python uses on
strings (code points). -/
def charListLe : List Char → List Char → Bool
  | [], _ => true
  | _ :: _, [] => false
  | a :: as, b :: bs =>
    if a.toNat < b.toNat then true
    else if b.toNat < a.toNat then false
    else charListLe as bs

/-- String order by code points, matching Python sorted(). -/
def strLe (a b : String) : Bool :=
  charListLe a.data b.data

/-- Insertion into a sorted list of strings. -/
def insertSorted (a : String) : List String → List String
  | [] => [a]
  | b :: t => if strLe a b then a :: b :: t else b :: insertSorted a t

/-- Insertion sort on strings, modelling the sort flupy group_by performs
on the grouping keys. -/
def sortStrings : List String → List String
  | [] => []
  | a :: t => insertSorted a (sortStrings t)

/-- Source lines 332-337: group the registered entities by identity (flupy
group_by sorts the keys) and raise DuplicateRegistration on the first
identity carried by more than one registration.  This runs before any
database access. -/
def duplicateIdentityCheck (entities : List ReplaceableEntity) : Except PlanError Unit :=
  let idents := entities.map ReplaceableEntity.identity
  match (sortStrings idents).find? (fun i => decide (1 < idents.count i)) with
  | some i =>
    .error (.duplicateRegistration
      ("PGFunction with identity " ++ i ++ " was registered multiple times"))
  | none => .ok ()

/-- Source lines 340-354: observed schemas are the explicitly registered
schemas, the SQLAlchemy metadata schemas, and the schema of every
registered entity, deduplicated (the source builds a python set, whose
iteration order is unspecified) minus the excluded schemas. -/
def observedSchemasOf (schemas : Option (List String)) (sqla_schemas : List (Option String))
    (entities : List ReplaceableEntity) (exclude_schemas : Option (List String)) :
    List String :=
  let observed := schemas.getD [] ++ sqla_schemas.filterMap id ++
    entities.map (fun e => e.schema)
  observed.dedup.filter (fun x => decide (x ∉ exclude_schemas.getD []))

/-- Diff of one entity in resolution order (source lines 400-413): simulate
the possible dependencies, the prefix of the resolved order before the
entity, and compute the required migration op inside that sandbox. -/
def diffEntity (env : DbEnv) (s : Sess) (order : List ReplaceableEntity)
    (e : ReplaceableEntity) : Except PlanError (Option ReversibleOp) × Sess :=
  let possible_dependencies := order.takeWhile (fun x => x != e)
  simulate_entities env s possible_dependencies
    (fun t => (Except.ok (get_required_migration_op env t.cur e), t))

/-- Diff every entity of the resolved order in sequence, collecting the
emitted Create and Replace ops (source lines 399-432; the
processed_entities list the source also maintains is never read when
choosing a simulation context, so it is not modelled). -/
def diffAllAux (env : DbEnv) (order : List ReplaceableEntity) :
    List ReplaceableEntity → Sess → Except PlanError (List ReversibleOp) × Sess
  | [], s => (.ok [], s)
  | e :: rest, s =>
    match diffEntity env s order e with
    | (.error err, s1) => (.error err, s1)
    | (.ok maybeOp, s1) =>
      match diffAllAux env order rest s1 with
      | (.error err, s2) => (.error err, s2)
      | (.ok ops, s2) =>
        (.ok (match maybeOp with
          | none => ops
          | some op => op :: ops), s2)

/-- Diff of the whole resolved order. -/
def diffAll (env : DbEnv) (order : List ReplaceableEntity) (s : Sess) :
    Except PlanError (List ReversibleOp) × Sess :=
  diffAllAux env order order s

/-- Orphan detection (source lines 434-447): for every observed schema and
every registered entity subclass, each live entity with no registered
entity of equal identity comparable yields a DropOp. -/
def orphanDrops (env : DbEnv) (d : Db) (entities : List ReplaceableEntity)
    (observed_schemas : List String) : List ReversibleOp :=
  observed_schemas.flatMap (fun schema =>
    env.kinds.flatMap (fun kind =>
      (from_database d kind schema).filterMap (fun db_entity =>
        if entities.any (fun le => env.idCmp db_entity == env.idCmp le) then none
        else some (.drop db_entity))))

/-- The body of compare_registered_entities that runs on the connection
(source lines 362-447): open the session nested transaction, solve the
resolution order, run the post-resolution check, diff every entity in
resolution order, then append the orphan drops. -/
def planBody (env : DbEnv) (entities : List ReplaceableEntity)
    (observed_schemas : List String) (s0 : Sess) :
    Except PlanError (List ReversibleOp) × Sess :=
  let s := beginNested s0
  let resolved_entities := solveResolutionOrder (trialOk env s.cur) entities
  match postResolutionCheck (trialOk env s.cur) entities resolved_entities with
  | .error err => (.error err, s)
  | .ok _ =>
    match diffAll env resolved_entities s with
    | (.error err, s1) => (.error err, s1)
    | (.ok crOps, s1) =>
      let dropOps := orphanDrops env s1.cur entities observed_schemas
      (.ok (crOps ++ dropOps), s1)

/-- Source function compare_registered_entities, the plan computation: the
duplicate identity check runs first and raises before any database access;
the observed schemas are computed; then a connection is opened, an outer
transaction begun, the plan body run, and in a finally block the outer
transaction is rolled back, so the database value returned to the caller
equals the initial one on every outcome. -/
def compare_registered_entities (env : DbEnv) (entities : List ReplaceableEntity)
    (schemas : Option (List String)) (exclude_schemas : Option (List String))
    (sqla_schemas : List (Option String)) (d0 : Db) :
    Except PlanError (List ReversibleOp) × Db :=
  match duplicateIdentityCheck entities with
  | .error err => (.error err, d0)
  | .ok _ =>
    let observed_schemas := observedSchemasOf schemas sqla_schemas entities exclude_schemas
    let r := planBody env entities observed_schemas { cur := d0, saved := [] }
    (r.1, d0)

/-- Invariant of the resolved list: every entity has all its dependencies
strictly earlier in the list. -/
def ctxInvar {α : Type} (deps : α → List α) (l : List α) : Prop :=
  ∀ (i : Nat) (hi : i < l.length), ∀ d ∈ deps (l[i]), d ∈ l.take i

/-- A declared function entity used in concrete runs. -/
def entF : ReplaceableEntity := ⟨"F", "public", "f()", "def-f"⟩

/-- A live function entity with a different signature than entF. -/
def entG : ReplaceableEntity := ⟨"F", "public", "g()", "def-g"⟩

/-- A live orphan entity with no declared counterpart. -/
def entOld : ReplaceableEntity := ⟨"F", "public", "old()", "def-old"⟩

/-- An environment whose definition comparable is constant, so two objects
with different identities still compare as definition-equal. -/
def envConstDef : DbEnv :=
  { idCmp := fun e => [e.signature]
    defCmp := fun _ => ["same"]
    deps := fun _ => []
    kinds := ["F"] }

/-- An environment with distinguishing comparables and no dependencies. -/
def envPlain : DbEnv :=
  { idCmp := fun e => [e.schema, e.signature]
    defCmp := fun e => [e.schema, e.signature, e.definition]
    deps := fun _ => []
    kinds := ["F"] }

/-- Two entities forming a dependency cycle. -/
def entX : ReplaceableEntity := ⟨"F", "public", "x()", "dx"⟩

/-- Second member of the cycle. -/
def entY : ReplaceableEntity := ⟨"F", "public", "y()", "dy"⟩

/-- An environment in which entX and entY reference each other. -/
def envCyclic : DbEnv :=
  { idCmp := fun e => [e.signature]
    defCmp := fun e => [e.definition]
    deps := fun e => if e = entX then [entY] else if e = entY then [entX] else []
    kinds := ["F"] }

/-- An environment whose create statements always reference a missing
object, so every materialization fails. -/
def envNeedsGhost : DbEnv :=
  { idCmp := fun _ => []
    defCmp := fun _ => []
    deps := fun _ => [entOld]
    kinds := ["F"] }

/-- Dependency function for the resolver runs: entG references entF. -/
def depsGF : ReplaceableEntity → List ReplaceableEntity :=
  fun e => if e = entG then [entF] else []

/-- Rank function witnessing that depsGF is acyclic. -/
def rankGF : ReplaceableEntity → Nat :=
  fun e => if e = entF then 0 else 1

/-- An entity whose schema contains a dot. -/
def entDotSchema : ReplaceableEntity := ⟨"F", "a.b", "c", "d1"⟩

/-- An entity whose signature contains a dot, with concatenated identity
equal to the one of entDotSchema. -/
def entDotSig : ReplaceableEntity := ⟨"F", "a", "b.c", "d2"⟩

section ResolverLemmas

variable {α : Type} [DecidableEq α]

lemma mem_trialStep (ok : List α → α → Bool) (res : List α) (e a : α) (h : a ∈ res) :
    a ∈ trialStep ok res e := by
  unfold trialStep
  split
  · exact h
  · split
    · exact List.mem_append_left _ h
    · exact h

lemma mem_resolutionPass (ok : List α → α → Bool) (entities : List α) :
    ∀ res a, a ∈ res → a ∈ resolutionPass ok entities res := by
  induction entities with
  | nil => intro res a h; exact h
  | cons b tl ih =>
    intro res a h
    exact ih (trialStep ok res b) a (mem_trialStep ok res b a h)

lemma trialStep_resolves (deps : α → List α) (res : List α) (e : α)
    (h : ∀ d ∈ deps e, d ∈ res) : e ∈ trialStep (depsOk deps) res e := by
  unfold trialStep
  split
  · assumption
  · rw [if_pos]
    · exact List.mem_append_right _ (List.mem_singleton.mpr rfl)
    · unfold depsOk
      rw [List.all_eq_true]
      intro d hd
      exact decide_eq_true (h d hd)

lemma resolutionPass_resolves (deps : α → List α) (entities : List α) :
    ∀ res e, e ∈ entities → (∀ d ∈ deps e, d ∈ res) →
      e ∈ resolutionPass (depsOk deps) entities res := by
  induction entities with
  | nil => intro res e he; exact absurd he (List.not_mem_nil e)
  | cons b tl ih =>
    intro res e he hdeps
    rcases List.mem_cons.mp he with rfl | htl
    · exact mem_resolutionPass (depsOk deps) tl _ e (trialStep_resolves deps res e hdeps)
    · exact ih (trialStep (depsOk deps) res b) e htl
        (fun d hd => mem_trialStep (depsOk deps) res b d (hdeps d hd))

lemma resolutionLoop_complete (deps : α → List α) (entities : List α) (rank : α → Nat)
    (hclosed : ∀ e ∈ entities, ∀ d ∈ deps e, d ∈ entities)
    (hrank : ∀ e ∈ entities, ∀ d ∈ deps e, rank d < rank e) :
    ∀ k, ∀ e ∈ entities, rank e < k → e ∈ resolutionLoop (depsOk deps) entities k := by
  intro k
  induction k with
  | zero => intro e _ h; omega
  | succ n ih =>
    intro e he hr
    have hdeps : ∀ d ∈ deps e, d ∈ resolutionLoop (depsOk deps) entities n := by
      intro d hd
      exact ih d (hclosed e he d hd) (by have := hrank e he d hd; omega)
    exact resolutionPass_resolves deps entities _ e he hdeps

lemma ctxInvar_nil (deps : α → List α) : ctxInvar deps ([] : List α) := by
  intro i hi
  simp at hi

lemma ctxInvar_trialStep (deps : α → List α) (res : List α) (e : α)
    (h : ctxInvar deps res) : ctxInvar deps (trialStep (depsOk deps) res e) := by
  unfold trialStep
  split
  · exact h
  · split
    case isTrue hok =>
      intro i hi d hd
      have hlen : i < res.length + 1 := by simpa using hi
      by_cases hlt : i < res.length
      · rw [List.getElem_append_left hlt] at hd
        rw [List.take_append_of_le_length (Nat.le_of_lt hlt)]
        exact h i hlt d hd
      · have hieq : i = res.length := by omega
        subst hieq
        have hde : (res ++ [e])[res.length] = e := by
          rw [List.getElem_append_right] <;> simp
        rw [hde] at hd
        rw [List.take_left]
        unfold depsOk at hok
        rw [List.all_eq_true] at hok
        exact of_decide_eq_true (hok d hd)
    · exact h

lemma ctxInvar_resolutionPass (deps : α → List α) (entities : List α) :
    ∀ res, ctxInvar deps res → ctxInvar deps (resolutionPass (depsOk deps) entities res) := by
  induction entities with
  | nil => intro res h; exact h
  | cons b tl ih =>
    intro res h
    exact ih (trialStep (depsOk deps) res b) (ctxInvar_trialStep deps res b h)

lemma ctxInvar_resolutionLoop (deps : α → List α) (entities : List α) :
    ∀ k, ctxInvar deps (resolutionLoop (depsOk deps) entities k) := by
  intro k
  induction k with
  | zero => exact ctxInvar_nil deps
  | succ n ih => exact ctxInvar_resolutionPass deps entities _ ih

lemma ctxInvar_precedes (deps : α → List α) (l : List α) (h : ctxInvar deps l)
    (a b : α) (hb : b ∈ l) (ha : a ∈ deps b) :
    ∃ (i : Nat) (hi : i < l.length), l[i] = b ∧ a ∈ l.take i := by
  obtain ⟨i, hi, rfl⟩ := List.mem_iff_getElem.mp hb
  exact ⟨i, hi, rfl, h i hi a ha⟩

end ResolverLemmas

section SessionLemmas

lemma rollback_of_saved_cons (c : Db) (v : List Db) (x : Db) :
    Sess.rollback { cur := x, saved := c :: v } = { cur := c, saved := v } := rfl

lemma simulate_entities_sess {α : Type} (env : DbEnv) (s : Sess)
    (entities : List ReplaceableEntity) (body : Sess → Except PlanError α × Sess)
    (hbal : ∀ t, (body t).2.saved = t.saved) :
    (simulate_entities env s entities body).2 = s := by
  obtain ⟨c0, v0⟩ := s
  simp only [simulate_entities, beginNested]
  cases hex : execCreates env entities c0 with
  | none => simp only [hex]; rfl
  | some d1 =>
    simp only [hex]
    have h := hbal { cur := d1, saved := c0 :: v0 }
    rcases hb : body { cur := d1, saved := c0 :: v0 } with ⟨r1, t⟩
    rw [hb] at h
    obtain ⟨tc, ts⟩ := t
    simp only at h
    subst h
    rfl

lemma simulate_entities_fail {α : Type} (env : DbEnv) (s : Sess)
    (entities : List ReplaceableEntity) (body : Sess → Except PlanError α × Sess)
    (hex : execCreates env entities s.cur = none) :
    (simulate_entities env s entities body).1 = .error .materializationFailed := by
  unfold simulate_entities
  simp only [beginNested, hex]

lemma simulate_entities_ok {α : Type} (env : DbEnv) (s : Sess)
    (entities : List ReplaceableEntity) (body : Sess → Except PlanError α × Sess)
    (d1 : Db) (hex : execCreates env entities s.cur = some d1) :
    (simulate_entities env s entities body).1 =
      (body { cur := d1, saved := s.cur :: s.saved }).1 := by
  unfold simulate_entities
  simp only [beginNested, hex]

lemma diffEntity_sess (env : DbEnv) (s : Sess) (order : List ReplaceableEntity)
    (e : ReplaceableEntity) : (diffEntity env s order e).2 = s :=
  simulate_entities_sess env s _ _ (fun _ => rfl)

lemma diffAllAux_sess (env : DbEnv) (order : List ReplaceableEntity) :
    ∀ l s, (diffAllAux env order l s).2 = s := by
  intro l
  induction l with
  | nil => intro s; rfl
  | cons e rest ih =>
    intro s
    have hs1 := diffEntity_sess env s order e
    unfold diffAllAux
    rcases h1 : diffEntity env s order e with ⟨r1, s1⟩
    rw [h1] at hs1
    simp only at hs1
    cases r1 with
    | error err => exact hs1
    | ok maybeOp =>
      have hs2 := ih s1
      rcases h2 : diffAllAux env order rest s1 with ⟨r2, s2⟩
      rw [h2] at hs2
      simp only at hs2
      show (match diffAllAux env order rest s1 with
        | (Except.error err, s2) => (Except.error err, s2)
        | (Except.ok ops, s2) =>
          (Except.ok (match maybeOp with
            | none => ops
            | some op => op :: ops), s2)).2 = s
      rw [h2]
      cases r2 with
      | error err => exact hs2.trans hs1
      | ok ops => exact hs2.trans hs1

lemma diffEntity_ok_shape (env : DbEnv) (s : Sess) (order : List ReplaceableEntity)
    (e : ReplaceableEntity) (maybeOp : Option ReversibleOp) (s1 : Sess)
    (h : diffEntity env s order e = (.ok maybeOp, s1)) :
    ∃ d1, maybeOp = get_required_migration_op env d1 e := by
  have h1 := congrArg Prod.fst h
  simp only at h1
  unfold diffEntity at h1
  cases hex : execCreates env (order.takeWhile (fun x => x != e)) s.cur with
  | none =>
    rw [simulate_entities_fail env s _ _ hex] at h1
    exact absurd h1 (by simp)
  | some d1 =>
    rw [simulate_entities_ok env s _ _ d1 hex] at h1
    simp only [Except.ok.injEq] at h1
    exact ⟨d1, h1.symm⟩

end SessionLemmas

section ShapeLemmas

lemma get_required_migration_op_shape (env : DbEnv) (d : Db) (e : ReplaceableEntity)
    (op : ReversibleOp) (h : get_required_migration_op env d e = some op) :
    op = .replace e ∨ op = .create e := by
  simp only [get_required_migration_op] at h
  split at h
  · exact absurd h (by simp)
  · split at h
    · left
      exact (Option.some.inj h).symm
    · right
      exact (Option.some.inj h).symm

lemma diffAllAux_shape (env : DbEnv) (order : List ReplaceableEntity) :
    ∀ l s ops s2, diffAllAux env order l s = (.ok ops, s2) → ∀ op ∈ ops,
      (∃ t, op = ReversibleOp.create t) ∨ (∃ t, op = ReversibleOp.replace t) := by
  intro l
  induction l with
  | nil =>
    intro s ops s2 h op hop
    simp only [diffAllAux, Prod.mk.injEq, Except.ok.injEq] at h
    rw [← h.1] at hop
    exact absurd hop (List.not_mem_nil op)
  | cons e rest ih =>
    intro s ops s2 h op hop
    unfold diffAllAux at h
    rcases h1 : diffEntity env s order e with ⟨r1, s1⟩
    rw [h1] at h
    cases r1 with
    | error err => exact absurd h (by simp)
    | ok maybeOp =>
      split at h
      · exact absurd h (by simp)
      · rename_i maybeOp' s1x heq
        simp only [Prod.mk.injEq, Except.ok.injEq] at heq
        obtain ⟨hmo, hs1⟩ := heq
        subst hmo
        subst hs1
        rcases h2 : diffAllAux env order rest s1 with ⟨r2, s2'⟩
        rw [h2] at h
        cases r2 with
        | error err =>
          have h' : ((Except.error err : Except PlanError (List ReversibleOp)), s2') =
              (Except.ok ops, s2) := h
          exact absurd h' (by simp)
        | ok ops' =>
          cases maybeOp with
          | none =>
            have h' : ((Except.ok ops' : Except PlanError (List ReversibleOp)), s2') =
                (Except.ok ops, s2) := h
            simp only [Prod.mk.injEq, Except.ok.injEq] at h'
            rw [← h'.1] at hop
            exact ih s1 ops' s2' h2 op hop
          | some op0 =>
            have h' : ((Except.ok (op0 :: ops') : Except PlanError (List ReversibleOp)), s2') =
                (Except.ok ops, s2) := h
            simp only [Prod.mk.injEq, Except.ok.injEq] at h'
            rw [← h'.1] at hop
            rcases List.mem_cons.mp hop with rfl | hop'
            · obtain ⟨d1, hd1⟩ := diffEntity_ok_shape env s order e _ s1 h1
              rcases get_required_migration_op_shape env d1 e op hd1.symm with hrep | hcre
              · right
                exact ⟨e, hrep⟩
              · left
                exact ⟨e, hcre⟩
            · exact ih s1 ops' s2' h2 op hop'

lemma orphanDrops_shape (env : DbEnv) (d : Db) (entities : List ReplaceableEntity)
    (obs : List String) : ∀ op ∈ orphanDrops env d entities obs,
      ∃ t, op = ReversibleOp.drop t := by
  intro op hop
  unfold orphanDrops at hop
  rw [List.mem_flatMap] at hop
  obtain ⟨schema, _, hop⟩ := hop
  rw [List.mem_flatMap] at hop
  obtain ⟨kind, _, hop⟩ := hop
  rw [List.mem_filterMap] at hop
  obtain ⟨x, _, hx⟩ := hop
  split at hx
  · exact absurd hx (by simp)
  · exact ⟨x, (Option.some.inj hx).symm⟩

lemma mem_orphanDrops (env : DbEnv) (d : Db) (entities : List ReplaceableEntity)
    (obs : List String) (x : ReplaceableEntity)
    (hsch : x.schema ∈ obs) (hk : x.kind ∈ env.kinds) (hx : x ∈ d)
    (hnone : ∀ le ∈ entities, ¬ env.idCmp x = env.idCmp le) :
    ReversibleOp.drop x ∈ orphanDrops env d entities obs := by
  unfold orphanDrops
  rw [List.mem_flatMap]
  refine ⟨x.schema, hsch, ?_⟩
  rw [List.mem_flatMap]
  refine ⟨x.kind, hk, ?_⟩
  rw [List.mem_filterMap]
  refine ⟨x, ?_, ?_⟩
  · unfold from_database
    rw [List.mem_filter]
    exact ⟨hx, by simp⟩
  · have hany : entities.any (fun le => env.idCmp x == env.idCmp le) = false := by
      rw [List.any_eq_false]
      intro le hle
      simpa using hnone le hle
    rw [hany]
    rfl

end ShapeLemmas

section SortLemmas

lemma mem_insertSorted (a x : String) : ∀ l, x ∈ insertSorted a l ↔ x = a ∨ x ∈ l := by
  intro l
  induction l with
  | nil => simp [insertSorted]
  | cons b t ih =>
    unfold insertSorted
    split
    · simp
    · simp only [List.mem_cons, ih]
      tauto

lemma mem_sortStrings (x : String) : ∀ l, x ∈ sortStrings l ↔ x ∈ l := by
  intro l
  induction l with
  | nil => simp [sortStrings]
  | cons a t ih =>
    unfold sortStrings
    rw [mem_insertSorted, ih, List.mem_cons]

end SortLemmas

section PlanLemmas

lemma planBody_ok (env : DbEnv) (entities : List ReplaceableEntity) (obs : List String)
    (s0 : Sess) (l : List ReversibleOp) (sEnd : Sess)
    (h : planBody env entities obs s0 = (.ok l, sEnd)) :
    ∃ crOps, l = crOps ++ orphanDrops env s0.cur entities obs ∧
      (∀ op ∈ crOps, (∃ t, op = ReversibleOp.create t) ∨
        (∃ t, op = ReversibleOp.replace t)) := by
  simp only [planBody, beginNested] at h
  split at h
  · exact absurd h (by simp)
  · split at h
    · exact absurd h (by simp)
    · rename_i crOps s1 heq
      simp only [Prod.mk.injEq, Except.ok.injEq] at h
      obtain ⟨hl, _⟩ := h
      have hs1 : s1 = { s0 with saved := s0.cur :: s0.saved } := by
        have hh := diffAllAux_sess env
          (solveResolutionOrder (trialOk env s0.cur) entities)
          (solveResolutionOrder (trialOk env s0.cur) entities)
          { s0 with saved := s0.cur :: s0.saved }
        rw [show diffAllAux env
            (solveResolutionOrder (trialOk env s0.cur) entities)
            (solveResolutionOrder (trialOk env s0.cur) entities)
            { s0 with saved := s0.cur :: s0.saved } =
          diffAll env (solveResolutionOrder (trialOk env s0.cur) entities)
            { s0 with saved := s0.cur :: s0.saved } from rfl, heq] at hh
        exact hh
      refine ⟨crOps, ?_, ?_⟩
      · rw [← hl, hs1]
      · intro op hop
        exact diffAllAux_shape env _ _ _ crOps s1 heq op hop

lemma compare_ok_shape (env : DbEnv) (entities : List ReplaceableEntity)
    (schemas exclude_schemas : Option (List String)) (sqla_schemas : List (Option String))
    (d0 : Db) (l : List ReversibleOp)
    (h : compare_registered_entities env entities schemas exclude_schemas sqla_schemas d0 =
      (.ok l, d0)) :
    ∃ crOps, l = crOps ++ orphanDrops env d0 entities
        (observedSchemasOf schemas sqla_schemas entities exclude_schemas) ∧
      (∀ op ∈ crOps, (∃ t, op = ReversibleOp.create t) ∨
        (∃ t, op = ReversibleOp.replace t)) := by
  simp only [compare_registered_entities] at h
  split at h
  · exact absurd h (by simp)
  · rcases hpb : planBody env entities
      (observedSchemasOf schemas sqla_schemas entities exclude_schemas)
      { cur := d0, saved := [] } with ⟨r, sEnd⟩
    rw [hpb] at h
    simp only [Prod.mk.injEq] at h
    obtain ⟨hr, _⟩ := h
    rw [hr] at hpb
    exact planBody_ok env entities _ _ l sEnd hpb

lemma compare_error_of_dup (env : DbEnv) (entities : List ReplaceableEntity)
    (schemas exclude_schemas : Option (List String)) (sqla_schemas : List (Option String))
    (d0 : Db) (err : PlanError) (h : duplicateIdentityCheck entities = .error err) :
    compare_registered_entities env entities schemas exclude_schemas sqla_schemas d0 =
      (.error err, d0) := by
  simp only [compare_registered_entities, h]

lemma compare_error_of_postcheck (env : DbEnv) (entities : List ReplaceableEntity)
    (schemas exclude_schemas : Option (List String)) (sqla_schemas : List (Option String))
    (d0 : Db) (err : PlanError)
    (hdup : duplicateIdentityCheck entities = .ok ())
    (hpc : postResolutionCheck (trialOk env d0) entities
      (solveResolutionOrder (trialOk env d0) entities) = .error err) :
    compare_registered_entities env entities schemas exclude_schemas sqla_schemas d0 =
      (.error err, d0) := by
  simp only [compare_registered_entities, hdup, planBody, beginNested, hpc]

lemma duplicateIdentityCheck_error_of_dup (entities : List ReplaceableEntity)
    (hdup : ∃ ident, 1 < (entities.map ReplaceableEntity.identity).count ident) :
    ∃ i, 1 < (entities.map ReplaceableEntity.identity).count i ∧
      duplicateIdentityCheck entities = .error (.duplicateRegistration
        ("PGFunction with identity " ++ i ++ " was registered multiple times")) := by
  obtain ⟨ident, hcount⟩ := hdup
  have hmem : ident ∈ entities.map ReplaceableEntity.identity :=
    List.count_pos_iff.mp (by omega)
  have hmem' : ident ∈ sortStrings (entities.map ReplaceableEntity.identity) :=
    (mem_sortStrings _ _).mpr hmem
  have hsome : ((sortStrings (entities.map ReplaceableEntity.identity)).find?
      (fun i => decide (1 < (entities.map ReplaceableEntity.identity).count i))).isSome := by
    rw [List.find?_isSome]
    exact ⟨ident, hmem', decide_eq_true hcount⟩
  obtain ⟨i, hi⟩ := Option.isSome_iff_exists.mp hsome
  have hp := List.find?_some hi
  simp only [decide_eq_true_eq] at hp
  refine ⟨i, hp, ?_⟩
  simp only [duplicateIdentityCheck]
  rw [hi]

end PlanLemmas

/-- C1, counterexample: the claim restricts the no-op test to live entities
sharing the identity of the declared entity, but get_required_migration_op
tests the definition comparable against every live entity of the schema.
Here the single live entity entG matches entF on the definition comparable
while no live entity matches entF on the identity comparable, yet the plan
holds no Create for entF (only the orphan drop of entG), where the claim
requires Create(entF). -/
theorem claim1_counterexample :
    (∀ x ∈ ([entG] : Db), ¬ envConstDef.idCmp x = envConstDef.idCmp entF) ∧
    compare_registered_entities envConstDef [entF] none none [] [entG] =
      (.ok [.drop entG], [entG]) ∧
    ReversibleOp.create entF ∉ [ReversibleOp.drop entG] := by
  refine ⟨by decide, by decide, by decide⟩

/-- C1, amended: for every entity diffed by the plan computation, the op is
decided over all live entities of the schema of the entity as seen by the
diff session: if any live entity has an equal definition comparable
(whatever its identity), no op; otherwise if any has an equal identity
comparable, exactly Replace; otherwise Create. -/
theorem claim1_amended (env : DbEnv) (d : Db) (e : ReplaceableEntity) :
    ((∃ x ∈ from_database d e.kind e.schema, env.defCmp e = env.defCmp x) →
      get_required_migration_op env d e = none) ∧
    ((∀ x ∈ from_database d e.kind e.schema, ¬ env.defCmp e = env.defCmp x) →
      (∃ x ∈ from_database d e.kind e.schema, env.idCmp e = env.idCmp x) →
      get_required_migration_op env d e = some (.replace e)) ∧
    ((∀ x ∈ from_database d e.kind e.schema, ¬ env.defCmp e = env.defCmp x) →
      (∀ x ∈ from_database d e.kind e.schema, ¬ env.idCmp e = env.idCmp x) →
      get_required_migration_op env d e = some (.create e)) := by
  refine ⟨?_, ?_, ?_⟩
  · rintro ⟨x, hx, hcmp⟩
    have hid : (from_database d e.kind e.schema).any
        (fun x => env.defCmp e == env.defCmp x) = true :=
      List.any_eq_true.mpr ⟨x, hx, beq_iff_eq.mpr hcmp⟩
    simp [get_required_migration_op, hid]
  · rintro hall ⟨x, hx, hcmp⟩
    have hdef : (from_database d e.kind e.schema).any
        (fun x => env.defCmp e == env.defCmp x) = false := by
      rw [List.any_eq_false]
      intro y hy
      simpa using hall y hy
    have hid : (from_database d e.kind e.schema).any
        (fun x => env.idCmp e == env.idCmp x) = true :=
      List.any_eq_true.mpr ⟨x, hx, beq_iff_eq.mpr hcmp⟩
    simp [get_required_migration_op, hdef, hid]
  · intro halldef hallid
    have hdef : (from_database d e.kind e.schema).any
        (fun x => env.defCmp e == env.defCmp x) = false := by
      rw [List.any_eq_false]
      intro y hy
      simpa using halldef y hy
    have hid : (from_database d e.kind e.schema).any
        (fun x => env.idCmp e == env.idCmp x) = false := by
      rw [List.any_eq_false]
      intro y hy
      simpa using hallid y hy
    simp [get_required_migration_op, hdef, hid]

/-- C1, witness for the amended theorem: in an empty database the declared
entity gets a Create op. -/
theorem claim1_amended_witness :
    get_required_migration_op envConstDef [] entF = some (.create entF) :=
  (claim1_amended envConstDef [] entF).2.2
    (by simp [from_database]) (by simp [from_database])

/-- C2: under the spec reading of sandbox success (a trial succeeds exactly
when every referenced entity is already resolved), for any batch whose
dependency graph is acyclic — witnessed by a rank function that drops
across every edge and stays below the batch size, as the longest-path rank
of a finite acyclic graph does — the resolver resolves every entity within
len(entities) passes, and every dependency precedes its dependent in the
resolved order; the input order of the batch is arbitrary. -/
theorem claim2_resolver_complete_and_ordered
    (deps : ReplaceableEntity → List ReplaceableEntity)
    (entities : List ReplaceableEntity) (rank : ReplaceableEntity → Nat)
    (hclosed : ∀ e ∈ entities, ∀ d ∈ deps e, d ∈ entities)
    (hrank : ∀ e ∈ entities, ∀ d ∈ deps e, rank d < rank e)
    (hbound : ∀ e ∈ entities, rank e < entities.length) :
    (∀ e ∈ entities, e ∈ solveResolutionOrder (depsOk deps) entities) ∧
    (∀ a b, b ∈ entities → a ∈ deps b →
      ∃ (i : Nat) (hi : i < (solveResolutionOrder (depsOk deps) entities).length),
        (solveResolutionOrder (depsOk deps) entities)[i] = b ∧
        a ∈ (solveResolutionOrder (depsOk deps) entities).take i) := by
  have hcomp : ∀ e ∈ entities, e ∈ solveResolutionOrder (depsOk deps) entities := by
    intro e he
    exact resolutionLoop_complete deps entities rank hclosed hrank
      entities.length e he (hbound e he)
  refine ⟨hcomp, ?_⟩
  intro a b hb hab
  exact ctxInvar_precedes deps _ (ctxInvar_resolutionLoop deps entities entities.length)
    a b (hcomp b hb) hab

/-- C2, witness: entG references entF and the batch is given in the order
entG before entF; both resolve and entF precedes entG. -/
theorem claim2_witness :
    entF ∈ solveResolutionOrder (depsOk depsGF) [entG, entF] ∧
    ∃ (i : Nat) (hi : i < (solveResolutionOrder (depsOk depsGF) [entG, entF]).length),
      (solveResolutionOrder (depsOk depsGF) [entG, entF])[i] = entG ∧
      entF ∈ (solveResolutionOrder (depsOk depsGF) [entG, entF]).take i := by
  have h := claim2_resolver_complete_and_ordered depsGF [entG, entF] rankGF
    (by decide) (by decide) (by decide)
  exact ⟨h.1 entF (by decide), h.2 entF entG (by decide) (by decide)⟩

/-- C3: when some entity is still unresolved after the len(entities) passes
(hfind names the first one), the plan computation raises: if the re-run
simulation fails, FailedToGenerateComparable naming the signature of that
entity — a configuration error distinct from the generic database error
materializationFailed — and if the re-run simulation unexpectedly
succeeds, the internal-consistency fault UnreachableException instead. -/
theorem claim3_unresolved_raises (env : DbEnv) (entities : List ReplaceableEntity)
    (schemas exclude_schemas : Option (List String)) (sqla_schemas : List (Option String))
    (d0 : Db) (e : ReplaceableEntity)
    (hdup : duplicateIdentityCheck entities = .ok ())
    (hfind : entities.find? (fun x =>
      decide (x ∉ solveResolutionOrder (trialOk env d0) entities)) = some e) :
    (trialOk env d0 (solveResolutionOrder (trialOk env d0) entities) e = false →
      compare_registered_entities env entities schemas exclude_schemas sqla_schemas d0 =
        (.error (.failedToGenerateComparable
          ("failed to simulate entity " ++ e.signature)), d0)) ∧
    (trialOk env d0 (solveResolutionOrder (trialOk env d0) entities) e = true →
      compare_registered_entities env entities schemas exclude_schemas sqla_schemas d0 =
        (.error .unreachableException, d0)) := by
  have hfind' : entities.find? (fun x =>
      !decide (x ∈ solveResolutionOrder (trialOk env d0) entities)) = some e := by
    simpa using hfind
  constructor
  · intro hfail
    apply compare_error_of_postcheck env entities schemas exclude_schemas sqla_schemas d0 _ hdup
    simp [postResolutionCheck, hfind', hfail]
  · intro hok
    apply compare_error_of_postcheck env entities schemas exclude_schemas sqla_schemas d0 _ hdup
    simp [postResolutionCheck, hfind', hok]

/-- C3, witness: a two-entity dependency cycle leaves entX unresolved and
the plan computation raises FailedToGenerateComparable naming it. -/
theorem claim3_witness :
    compare_registered_entities envCyclic [entX, entY] none none [] [] =
      (.error (.failedToGenerateComparable
        ("failed to simulate entity " ++ entX.signature)), []) := by
  have h := claim3_unresolved_raises envCyclic [entX, entY] none none [] [] entX
    (by decide) (by decide)
  exact h.1 (by decide)

/-- C4: the sandbox begins a nested transaction, executes the
create-or-replace statements in list order, runs the body, and restores the
session on every exit path; a failing statement surfaces as the
materialization failure with the rollback already performed, and on
success the body observes exactly the state after all creates. -/
theorem claim4_simulate_contract {α : Type} (env : DbEnv) (s : Sess)
    (entities : List ReplaceableEntity) (body : Sess → Except PlanError α × Sess)
    (hbal : ∀ t, ((body t).2).saved = t.saved) :
    (simulate_entities env s entities body).2 = s ∧
    (execCreates env entities s.cur = none →
      (simulate_entities env s entities body).1 = .error .materializationFailed) ∧
    (∀ d1, execCreates env entities s.cur = some d1 →
      (simulate_entities env s entities body).1 =
        (body { cur := d1, saved := s.cur :: s.saved }).1) :=
  ⟨simulate_entities_sess env s entities body hbal,
   fun hex => simulate_entities_fail env s entities body hex,
   fun d1 hex => simulate_entities_ok env s entities body d1 hex⟩

/-- C4, witness: a create that fails (its referenced object is missing)
propagates the materialization failure and still restores the session. -/
theorem claim4_witness :
    (simulate_entities envNeedsGhost { cur := [], saved := [] } [entF]
      (fun t => (Except.ok (0 : Nat), t))).2 = { cur := ([] : Db), saved := [] } ∧
    (simulate_entities envNeedsGhost { cur := [], saved := [] } [entF]
      (fun t => (Except.ok (0 : Nat), t))).1 = .error .materializationFailed := by
  have h := claim4_simulate_contract envNeedsGhost { cur := [], saved := [] } [entF]
    (fun t => (Except.ok (0 : Nat), t)) (fun _ => rfl)
  exact ⟨h.1, h.2.1 (by decide)⟩

/-- C5: reverse of Create is Drop, reverse of Drop is Create, reverse of
Replace is Revert, reverse composed twice on Create gives Create back, and
reverse of Revert is the programming error, rendered as none. -/
theorem claim5_reverse_algebra (x : ReplaceableEntity) :
    ReversibleOp.reverse (.create x) = some (.drop x) ∧
    ReversibleOp.reverse (.drop x) = some (.create x) ∧
    ReversibleOp.reverse (.replace x) = some (.revert x) ∧
    (ReversibleOp.reverse (.create x)).bind ReversibleOp.reverse = some (.create x) ∧
    ReversibleOp.reverse (.revert x) = none :=
  ⟨rfl, rfl, rfl, rfl, rfl⟩

/-- C6: when the plan computation returns an op list, the list splits into
the diff ops (all Create or Replace) followed by the orphan drops (all
Drop), and every live entity of a registered kind in an observed schema
with no registered entity of equal identity comparable has its Drop in the
trailing part. -/
theorem claim6_orphan_drops_after (env : DbEnv) (entities : List ReplaceableEntity)
    (schemas exclude_schemas : Option (List String)) (sqla_schemas : List (Option String))
    (d0 : Db) (l : List ReversibleOp)
    (h : compare_registered_entities env entities schemas exclude_schemas sqla_schemas d0 =
      (.ok l, d0)) :
    ∃ cr dr, l = cr ++ dr ∧
      (∀ op ∈ cr, (∃ t, op = ReversibleOp.create t) ∨ (∃ t, op = ReversibleOp.replace t)) ∧
      (∀ op ∈ dr, ∃ t, op = ReversibleOp.drop t) ∧
      (∀ x ∈ d0, x.schema ∈ observedSchemasOf schemas sqla_schemas entities exclude_schemas →
        x.kind ∈ env.kinds → (∀ le ∈ entities, ¬ env.idCmp x = env.idCmp le) →
        ReversibleOp.drop x ∈ dr) := by
  obtain ⟨crOps, hl, hshape⟩ :=
    compare_ok_shape env entities schemas exclude_schemas sqla_schemas d0 l h
  refine ⟨crOps, orphanDrops env d0 entities
    (observedSchemasOf schemas sqla_schemas entities exclude_schemas),
    hl, hshape, ?_, ?_⟩
  · exact orphanDrops_shape env d0 entities _
  · intro x hx hsch hk hnone
    exact mem_orphanDrops env d0 entities _ x hsch hk hx hnone

/-- C6, witness: with one declared entity and one live orphan, the plan is
the Create followed by the orphan Drop, and the split separates them. -/
theorem claim6_witness :
    ∃ cr dr, [ReversibleOp.create entF, ReversibleOp.drop entOld] = cr ++ dr ∧
      (∀ op ∈ cr, (∃ t, op = ReversibleOp.create t) ∨ (∃ t, op = ReversibleOp.replace t)) ∧
      (∀ op ∈ dr, ∃ t, op = ReversibleOp.drop t) ∧
      (∀ x ∈ ([entOld] : Db), x.schema ∈ observedSchemasOf none [] [entF] none →
        x.kind ∈ envPlain.kinds → (∀ le ∈ [entF], ¬ envPlain.idCmp x = envPlain.idCmp le) →
        ReversibleOp.drop x ∈ dr) :=
  claim6_orphan_drops_after envPlain [entF] none none [] [entOld]
    [ReversibleOp.create entF, ReversibleOp.drop entOld] (by decide)

/-- C7: two registrations sharing an identity make the plan computation
fail with DuplicateRegistration naming a duplicated identity, with the
same result for every database environment and every initial database
state — no database access is involved — and the returned state is the
initial one. -/
theorem claim7_duplicate_before_db (entities : List ReplaceableEntity)
    (hdup : ∃ ident, 1 < (entities.map ReplaceableEntity.identity).count ident) :
    ∃ i, 1 < (entities.map ReplaceableEntity.identity).count i ∧
      ∀ (env : DbEnv) (schemas exclude_schemas : Option (List String))
        (sqla_schemas : List (Option String)) (d0 : Db),
        compare_registered_entities env entities schemas exclude_schemas sqla_schemas d0 =
          (.error (.duplicateRegistration
            ("PGFunction with identity " ++ i ++ " was registered multiple times")), d0) := by
  obtain ⟨i, hc, herr⟩ := duplicateIdentityCheck_error_of_dup entities hdup
  exact ⟨i, hc, fun env schemas excl sqla d0 =>
    compare_error_of_dup env entities schemas excl sqla d0 _ herr⟩

/-- C7, witness: registering the same entity twice. -/
theorem claim7_witness :
    ∃ i, 1 < (([entF, entF] : List ReplaceableEntity).map ReplaceableEntity.identity).count i ∧
      ∀ (env : DbEnv) (schemas exclude_schemas : Option (List String))
        (sqla_schemas : List (Option String)) (d0 : Db),
        compare_registered_entities env [entF, entF] schemas exclude_schemas sqla_schemas d0 =
          (.error (.duplicateRegistration
            ("PGFunction with identity " ++ i ++ " was registered multiple times")), d0) :=
  claim7_duplicate_before_db [entF, entF] ⟨"public.f()", by decide⟩

/-- C8: the plan computation is read-only — for every environment, batch,
schema arguments and initial database state, and on every outcome, the
database state it returns equals the initial one, because every sandbox
nests inside the one outer transaction that is rolled back in the finally
block. -/
theorem claim8_outer_rollback (env : DbEnv) (entities : List ReplaceableEntity)
    (schemas exclude_schemas : Option (List String)) (sqla_schemas : List (Option String))
    (d0 : Db) :
    (compare_registered_entities env entities schemas exclude_schemas sqla_schemas d0).2 =
      d0 := by
  cases h : duplicateIdentityCheck entities with
  | error err => simp [compare_registered_entities, h]
  | ok u => simp [compare_registered_entities, h]

/-- C9: identity is the bare concatenation schema dot signature, so the
distinct pairs (schema a.b, signature c) and (schema a, signature b.c)
share the identity a.b.c and the registration check reports them as
duplicates, for every environment and database state. -/
theorem claim9_identity_concatenation :
    (∀ e : ReplaceableEntity, e.identity = e.schema ++ "." ++ e.signature) ∧
    entDotSchema.schema ≠ entDotSig.schema ∧
    entDotSchema.identity = entDotSig.identity ∧
    (∀ (env : DbEnv) (schemas exclude_schemas : Option (List String))
      (sqla_schemas : List (Option String)) (d0 : Db),
      compare_registered_entities env [entDotSchema, entDotSig] schemas exclude_schemas
          sqla_schemas d0 =
        (.error (.duplicateRegistration
          "PGFunction with identity a.b.c was registered multiple times"), d0)) := by
  refine ⟨fun e => rfl, by decide, by decide, ?_⟩
  intro env schemas excl sqla d0
  exact compare_error_of_dup env _ schemas excl sqla d0 _ (by decide)

/-- C10: get_database_definition returns none exactly when no live entity
of the schema matches on the identity comparable and the first element of
the match list otherwise, and the Revert renderer, having no None guard,
produces no migration text when the looked-up entity is gone. -/
theorem claim10_database_definition_and_revert (env : DbEnv) (d : Db)
    (e : ReplaceableEntity) :
    ((∀ x ∈ from_database d e.kind e.schema, ¬ env.idCmp e = env.idCmp x) →
      get_database_definition env d e = none) ∧
    (∀ m ms, (from_database d e.kind e.schema).filter
        (fun x => env.idCmp e == env.idCmp x) = m :: ms →
      get_database_definition env d e = some m) ∧
    ((∀ x ∈ from_database d e.kind e.schema, ¬ env.idCmp e = env.idCmp x) →
      ∀ op : ReversibleOp, op.target = e → render_revert_entity env d op = none) := by
  have hnone : (∀ x ∈ from_database d e.kind e.schema, ¬ env.idCmp e = env.idCmp x) →
      get_database_definition env d e = none := by
    intro hall
    have hfil : (from_database d e.kind e.schema).filter
        (fun x => env.idCmp e == env.idCmp x) = [] := by
      rw [List.filter_eq_nil_iff]
      intro x hx
      simpa using hall x hx
    simp [get_database_definition, hfil]
  refine ⟨hnone, ?_, ?_⟩
  · intro m ms hf
    simp [get_database_definition, hf]
  · intro hall op hop
    simp [render_revert_entity, hop, hnone hall]

/-- C10, witness: in an empty database the lookup returns none and the
Revert renderer yields no text. -/
theorem claim10_witness :
    get_database_definition envPlain [] entF = none ∧
    render_revert_entity envPlain [] (ReversibleOp.revert entF) = none := by
  have h := claim10_database_definition_and_revert envPlain [] entF
  exact ⟨h.1 (by simp [from_database]),
    h.2.2 (by simp [from_database]) (ReversibleOp.revert entF) rfl⟩

end AlembicUtils
